import Mathlib

/-!
Verification of the Generative Generator firmware core (learning, tendency
analysis, and the generative decision engine).  Floating-point quantities in
the firmware are modelled exactly over the rationals; machine integers are
modelled as natural numbers or integers with explicit wrap/clamp arithmetic.
All definitions are shallow embeddings of the corresponding C++ functions.
-/

set_option autoImplicit false

namespace GenGen

/-- Sequential clamping to the unit interval, mirroring the firmware idiom of
two successive comparisons that floor at 0.0f and then cap at 1.0f. -/
def clamp01 (x : ℚ) : ℚ :=
  let x1 := if x < 0 then 0 else x
  if x1 > 1 then 1 else x1

/-- The twelve musical control parameters plus the page-3 utility parameters,
all normalized floats in the firmware (parameters_smoothed array). -/
structure Params where
  motion : ℚ
  memory : ℚ
  registerParam : ℚ
  direction : ℚ
  phrase : ℚ
  energy : ℚ
  stability : ℚ
  forgetfulness : ℚ
  leap_shape : ℚ
  direction_memory : ℚ
  home_register : ℚ
  range_width : ℚ
  learn_timeout : ℚ
  echo_notes : ℚ
deriving DecidableEq

/-- energy_deviation = (ENERGY - 0.5) * 2, as computed in generate_next_note,
apply_memory_bias, select_direction and apply_octave_displacement. -/
def energy_deviation (p : Params) : ℚ := (p.energy - 0.5) * 2

/-- motion_bias after the energy perturbation and clamping
(generate_next_note). -/
def effective_motion (p : Params) : ℚ :=
  clamp01 (p.motion + energy_deviation p * 0.3)

/-- phrase_param after the energy perturbation and clamping
(generate_next_note). -/
def effective_phrase (p : Params) : ℚ :=
  clamp01 (p.phrase + energy_deviation p * 0.2)

/-- memory_param after the energy perturbation and clamping
(apply_memory_bias). -/
def effective_memory (p : Params) : ℚ :=
  clamp01 (p.memory - energy_deviation p * 0.3)

/-- effective_gravity after the energy perturbation and clamping, before the
phrase-boundary boost (select_direction). -/
def effective_gravity (p : Params) : ℚ :=
  clamp01 (p.registerParam - energy_deviation p * 0.3)

/-- range_param after the energy perturbation and clamping
(apply_octave_displacement). -/
def effective_range (p : Params) : ℚ :=
  clamp01 (p.range_width + energy_deviation p * 0.3)

theorem clamp01_eq_max_min (x : ℚ) : clamp01 x = max 0 (min 1 x) := by
  simp only [clamp01, max_def, min_def]
  split_ifs <;> linarith

theorem clamp01_mono {x y : ℚ} (h : x ≤ y) : clamp01 x ≤ clamp01 y := by
  rw [clamp01_eq_max_min, clamp01_eq_max_min]
  exact max_le_max le_rfl (min_le_min le_rfl h)

/-- A neutral control vector (all parameters at mid position). -/
def midParams : Params :=
  ⟨0.5, 0.5, 0.5, 0.5, 0.5, 0.5, 0.5, 0.5, 0.5, 0.5, 0.5, 0.5, 0.5, 0.5⟩

/-- C1: ENERGY acts as a coherent macro: with energy_dev = (ENERGY - 0.5) * 2,
the five effective sub-parameters used by the generation pipeline equal the
clamp to [0,1] of MOTION + energy_dev*0.3, PHRASE + energy_dev*0.2,
MEMORY - energy_dev*0.3, REGISTER - energy_dev*0.3 and
RANGE_WIDTH + energy_dev*0.3; consequently raising ENERGY alone moves all
five behaviors in the stated consistent directions. -/
theorem c1_energy_coherence (p : Params) (e : ℚ) (he : p.energy ≤ e) :
    (effective_motion p = max 0 (min 1 (p.motion + (p.energy - 0.5) * 2 * 0.3))
      ∧ effective_phrase p = max 0 (min 1 (p.phrase + (p.energy - 0.5) * 2 * 0.2))
      ∧ effective_memory p = max 0 (min 1 (p.memory - (p.energy - 0.5) * 2 * 0.3))
      ∧ effective_gravity p = max 0 (min 1 (p.registerParam - (p.energy - 0.5) * 2 * 0.3))
      ∧ effective_range p = max 0 (min 1 (p.range_width + (p.energy - 0.5) * 2 * 0.3)))
    ∧ (effective_motion p ≤ effective_motion { p with energy := e }
      ∧ effective_phrase p ≤ effective_phrase { p with energy := e }
      ∧ effective_memory { p with energy := e } ≤ effective_memory p
      ∧ effective_gravity { p with energy := e } ≤ effective_gravity p
      ∧ effective_range p ≤ effective_range { p with energy := e }) := by
  constructor
  · refine ⟨?_, ?_, ?_, ?_, ?_⟩ <;>
      simp [effective_motion, effective_phrase, effective_memory,
        effective_gravity, effective_range, clamp01_eq_max_min, energy_deviation]
  · refine ⟨?_, ?_, ?_, ?_, ?_⟩ <;>
      · apply clamp01_mono
        simp only [energy_deviation]
        linarith

/-- Witness for C1 at a concrete control vector and energy value. -/
theorem c1_energy_coherence_witness :
    effective_motion midParams ≤ effective_motion { midParams with energy := 0.8 } :=
  (c1_energy_coherence midParams 0.8 (by norm_num [midParams])).2.1

/-- The three session states of the firmware state machine. -/
inductive LearningState
  | idle
  | learning
  | generating
deriving DecidableEq

/-- The LearnedTendencies struct: statistics extracted from a learning
session.  interval_counts is the histogram over bins 0..12. -/
structure LearnedTendencies where
  interval_counts : ℕ → ℕ
  total_intervals : ℕ
  ascending_count : ℕ
  descending_count : ℕ
  repeat_count : ℕ
  register_center : ℚ
  register_range : ℚ
  register_min : ℕ
  register_max : ℕ
  most_common_interval : ℕ
  second_common_interval : ℕ

/-- Value-initialized LearnedTendencies(), all fields zero. -/
def emptyTendencies : LearnedTendencies :=
  ⟨fun _ => 0, 0, 0, 0, 0, 0, 0, 0, 0, 0, 0⟩

/-- The register min/max/sum loop of analyze_learned_notes: starting from
min = 127, max = 0, sum = 0, fold each note through the two comparisons and
the accumulating sum. -/
def regScan : List ℕ → ℕ → ℕ → ℚ → ℕ × ℕ × ℚ
  | [], mn, mx, s => (mn, mx, s)
  | n :: rest, mn, mx, s =>
      regScan rest (if n < mn then n else mn) (if n > mx then n else mx) (s + n)

/-- One iteration of the interval loop of analyze_learned_notes: classify the
signed interval between two consecutive notes and count its saturated
absolute size into the histogram. -/
def intervalStep (t : LearnedTendencies) (a b : ℕ) : LearnedTendencies :=
  let interval : ℤ := (b : ℤ) - (a : ℤ)
  let t1 :=
    if interval > 0 then { t with ascending_count := t.ascending_count + 1 }
    else if interval < 0 then { t with descending_count := t.descending_count + 1 }
    else { t with repeat_count := t.repeat_count + 1 }
  let sz := min interval.natAbs 12
  { t1 with
    interval_counts := Function.update t1.interval_counts sz (t1.interval_counts sz + 1),
    total_intervals := t1.total_intervals + 1 }

/-- The interval loop over all consecutive pairs of the learned buffer. -/
def intervalScan : LearnedTendencies → List ℕ → LearnedTendencies
  | t, a :: b :: rest => intervalScan (intervalStep t a b) (b :: rest)
  | t, _ => t

/-- One iteration of the most-common scan: state is
(max_count, most_common, second_max_count, second_common); a bin displaces a
slot only on a strict comparison. -/
def commonStep (c : ℕ → ℕ) (st : ℕ × ℕ × ℕ × ℕ) (i : ℕ) : ℕ × ℕ × ℕ × ℕ :=
  if c i > st.1 then (c i, i, st.1, st.2.1)
  else if c i > st.2.2.1 then (st.1, st.2.1, c i, i)
  else st

/-- The most-common scan after processing bins 0..k-1 in ascending order,
starting from the zero-initialized state. -/
def commonScanUpTo (c : ℕ → ℕ) : ℕ → ℕ × ℕ × ℕ × ℕ
  | 0 => (0, 0, 0, 0)
  | k + 1 => commonStep c (commonScanUpTo c k) k

/-- analyze_learned_notes: clears the previous model, requires at least two
notes, computes register statistics, the interval histogram and direction
counts, and the two most common interval bins. -/
def analyze_learned_notes (_prevModel : LearnedTendencies) (buf : List ℕ) :
    LearnedTendencies :=
  let t0 := emptyTendencies
  if buf.length < 2 then t0
  else
    let r := regScan buf 127 0 0
    let t1 := { t0 with
      register_min := r.1
      register_max := r.2.1
      register_center := r.2.2 / (buf.length : ℚ)
      register_range := (r.2.1 : ℚ) - (r.1 : ℚ) }
    let t2 := intervalScan t1 buf
    let mc := commonScanUpTo t2.interval_counts 13
    { t2 with most_common_interval := mc.2.1, second_common_interval := mc.2.2.2 }

/-- The consecutive pairs of the learned buffer, in processing order. -/
def pairList (l : List ℕ) : List (ℕ × ℕ) := l.zip l.tail

theorem sum_update_succ (c : ℕ → ℕ) (j : ℕ) (hj : j < 13) :
    (∑ i in Finset.range 13, Function.update c j (c j + 1) i)
      = (∑ i in Finset.range 13, c i) + 1 := by
  have hmem : j ∈ Finset.range 13 := Finset.mem_range.2 hj
  rw [Finset.sum_update_of_mem hmem, Finset.sdiff_singleton_eq_erase,
    ← Finset.add_sum_erase _ c hmem]
  omega

theorem intervalStep_counts (t : LearnedTendencies) (a b : ℕ) :
    (intervalStep t a b).interval_counts
      = Function.update t.interval_counts (min ((b : ℤ) - (a : ℤ)).natAbs 12)
          (t.interval_counts (min ((b : ℤ) - (a : ℤ)).natAbs 12) + 1) := by
  simp only [intervalStep]
  split_ifs <;> rfl

theorem intervalStep_asc (t : LearnedTendencies) (a b : ℕ) :
    (intervalStep t a b).ascending_count
      = t.ascending_count + (if a < b then 1 else 0) := by
  simp only [intervalStep]
  split_ifs <;> simp <;> omega

theorem intervalStep_desc (t : LearnedTendencies) (a b : ℕ) :
    (intervalStep t a b).descending_count
      = t.descending_count + (if b < a then 1 else 0) := by
  simp only [intervalStep]
  split_ifs <;> simp <;> omega

theorem intervalStep_rep (t : LearnedTendencies) (a b : ℕ) :
    (intervalStep t a b).repeat_count
      = t.repeat_count + (if a = b then 1 else 0) := by
  simp only [intervalStep]
  split_ifs <;> simp <;> omega

theorem intervalStep_reg (t : LearnedTendencies) (a b : ℕ) :
    (intervalStep t a b).register_center = t.register_center
    ∧ (intervalStep t a b).register_range = t.register_range
    ∧ (intervalStep t a b).register_min = t.register_min
    ∧ (intervalStep t a b).register_max = t.register_max := by
  simp only [intervalStep]
  split_ifs <;> exact ⟨rfl, rfl, rfl, rfl⟩

theorem intervalScan_sum : ∀ (l : List ℕ) (t : LearnedTendencies),
    (∑ i in Finset.range 13, (intervalScan t l).interval_counts i)
      = (∑ i in Finset.range 13, t.interval_counts i) + (l.length - 1)
  | [], t => by simp [intervalScan]
  | [a], t => by simp [intervalScan]
  | a :: b :: rest, t => by
    have ih := intervalScan_sum (b :: rest) (intervalStep t a b)
    simp only [intervalScan] at ih ⊢
    rw [ih, intervalStep_counts, sum_update_succ _ _ (by omega)]
    simp only [List.length_cons]
    omega

theorem intervalScan_counts : ∀ (l : List ℕ) (t : LearnedTendencies) (i : ℕ),
    (intervalScan t l).interval_counts i
      = t.interval_counts i
        + (pairList l).countP
            (fun ab => decide (min ((ab.2 : ℤ) - (ab.1 : ℤ)).natAbs 12 = i))
  | [], t, i => by simp [intervalScan, pairList]
  | [a], t, i => by simp [intervalScan, pairList]
  | a :: b :: rest, t, i => by
    have ih := intervalScan_counts (b :: rest) (intervalStep t a b) i
    have hp : pairList (a :: b :: rest) = (a, b) :: pairList (b :: rest) := by
      simp [pairList]
    simp only [intervalScan] at ih ⊢
    rw [ih, intervalStep_counts, Function.update_apply, hp, List.countP_cons]
    by_cases h : min ((b : ℤ) - (a : ℤ)).natAbs 12 = i
    · simp [h]; omega
    · simp [h, Ne.symm h]

theorem intervalScan_dir_sum : ∀ (l : List ℕ) (t : LearnedTendencies),
    (intervalScan t l).ascending_count + (intervalScan t l).descending_count
      + (intervalScan t l).repeat_count
    = t.ascending_count + t.descending_count + t.repeat_count + (l.length - 1)
  | [], t => by simp [intervalScan]
  | [a], t => by simp [intervalScan]
  | a :: b :: rest, t => by
    have ih := intervalScan_dir_sum (b :: rest) (intervalStep t a b)
    simp only [intervalScan] at ih ⊢
    rw [ih, intervalStep_asc, intervalStep_desc, intervalStep_rep]
    simp only [List.length_cons]
    split_ifs <;> omega

theorem intervalScan_reg : ∀ (l : List ℕ) (t : LearnedTendencies),
    (intervalScan t l).register_center = t.register_center
    ∧ (intervalScan t l).register_range = t.register_range
    ∧ (intervalScan t l).register_min = t.register_min
    ∧ (intervalScan t l).register_max = t.register_max
  | [], t => ⟨rfl, rfl, rfl, rfl⟩
  | [a], t => ⟨rfl, rfl, rfl, rfl⟩
  | a :: b :: rest, t => by
    have ih := intervalScan_reg (b :: rest) (intervalStep t a b)
    have hs := intervalStep_reg t a b
    simp only [intervalScan]
    exact ⟨ih.1.trans hs.1, ih.2.1.trans hs.2.1, ih.2.2.1.trans hs.2.2.1,
      ih.2.2.2.trans hs.2.2.2⟩

theorem regScan_sum : ∀ (l : List ℕ) (mn mx : ℕ) (s : ℚ),
    (regScan l mn mx s).2.2 = s + (l.map (fun n : ℕ => (n : ℚ))).sum
  | [], mn, mx, s => by simp [regScan]
  | n :: rest, mn, mx, s => by
    simp only [regScan]
    rw [regScan_sum rest, List.map_cons, List.sum_cons]
    ring

/-- C9: the tendency analysis is deterministic and idempotent: running it a
second time on the same buffer yields an identical model (the model is reset
to the empty state at entry, so nothing accumulates), and the result does not
depend on the previously stored model. -/
theorem c9_analysis_idempotent (prev prev2 : LearnedTendencies) (buf : List ℕ) :
    analyze_learned_notes (analyze_learned_notes prev buf) buf
        = analyze_learned_notes prev buf
    ∧ analyze_learned_notes prev buf = analyze_learned_notes prev2 buf :=
  ⟨rfl, rfl⟩

/-- C6: for every learned sequence of length at least 2, the histogram counts
sum to length-1 (each consecutive interval saturated at 12 before counting),
the direction counts partition the length-1 consecutive pairs,
register_center is the arithmetic mean of the notes, and register_range is
register_max - register_min. -/
theorem c6_analysis_counts (prev : LearnedTendencies) (buf : List ℕ)
    (hlen : 2 ≤ buf.length) :
    (∑ i in Finset.range 13, (analyze_learned_notes prev buf).interval_counts i)
        = buf.length - 1
    ∧ (analyze_learned_notes prev buf).ascending_count
        + (analyze_learned_notes prev buf).descending_count
        + (analyze_learned_notes prev buf).repeat_count = buf.length - 1
    ∧ (∀ i, (analyze_learned_notes prev buf).interval_counts i
        = (pairList buf).countP
            (fun ab => decide (min ((ab.2 : ℤ) - (ab.1 : ℤ)).natAbs 12 = i)))
    ∧ (analyze_learned_notes prev buf).register_center
        = (buf.map (fun n : ℕ => (n : ℚ))).sum / (buf.length : ℚ)
    ∧ (analyze_learned_notes prev buf).register_range
        = ((analyze_learned_notes prev buf).register_max : ℚ)
          - ((analyze_learned_notes prev buf).register_min : ℚ) := by
  simp only [analyze_learned_notes, if_neg (by omega : ¬ buf.length < 2)]
  refine ⟨?_, ?_, ?_, ?_, ?_⟩
  · rw [intervalScan_sum]
    simp [emptyTendencies]
  · rw [intervalScan_dir_sum]
    simp [emptyTendencies]
  · intro i
    rw [intervalScan_counts]
    simp [emptyTendencies]
  · rw [(intervalScan_reg buf _).1]
    simp [emptyTendencies, regScan_sum]
  · rw [(intervalScan_reg buf _).2.1, (intervalScan_reg buf _).2.2.1,
      (intervalScan_reg buf _).2.2.2]

/-- Witness for C6 on the pentatonic scenario from the specification. -/
theorem c6_analysis_counts_witness :
    (analyze_learned_notes emptyTendencies [60, 62, 64, 67, 69]).register_center
      = (([60, 62, 64, 67, 69] : List ℕ).map (fun n : ℕ => (n : ℚ))).sum
          / ((([60, 62, 64, 67, 69] : List ℕ).length : ℕ) : ℚ) :=
  (c6_analysis_counts emptyTendencies [60, 62, 64, 67, 69] (by decide)).2.2.2.1

/-- m is the lowest-index bin attaining the maximum count among bins 0..12. -/
def lowestPrimary (c : ℕ → ℕ) (m : ℕ) : Prop :=
  m < 13 ∧ (∀ j, j < 13 → c j ≤ c m) ∧ ∀ j, j < m → c j < c m

/-- s is the lowest-index bin attaining the maximum count among bins 0..12
other than the primary bin p. -/
def lowestSecondary (c : ℕ → ℕ) (p s : ℕ) : Prop :=
  s < 13 ∧ s ≠ p ∧ (∀ j, j < 13 → j ≠ p → c j ≤ c s)
    ∧ ∀ j, j < s → j ≠ p → c j < c s

/-- Invariant of the most-common scan after processing bins 0..k-1: the first
two components hold the running maximum and its lowest-index witness, the
last two the second maximum over the non-primary bins and, when that maximum
is positive, its lowest-index witness. -/
def scanInv (c : ℕ → ℕ) (k : ℕ) (st : ℕ × ℕ × ℕ × ℕ) : Prop :=
  (∀ j, j < k → c j ≤ st.1)
  ∧ (st.2.1 < k ∧ c st.2.1 = st.1 ∧ ∀ j, j < st.2.1 → c j < st.1)
  ∧ (∀ j, j < k → j ≠ st.2.1 → c j ≤ st.2.2.1)
  ∧ (0 < st.2.2.1 →
      st.2.2.2 < k ∧ st.2.2.2 ≠ st.2.1 ∧ c st.2.2.2 = st.2.2.1
        ∧ ∀ j, j < st.2.2.2 → j ≠ st.2.1 → c j < st.2.2.1)

theorem scanInv_one (c : ℕ → ℕ) : scanInv c 1 (commonScanUpTo c 1) := by
  simp only [commonScanUpTo, commonStep]
  split_ifs with h
  · simp only [scanInv]
    refine ⟨?_, ⟨by omega, trivial, fun j hj => by omega⟩, ?_, fun hS => absurd hS (by omega)⟩
    · intro j hj
      have hj0 : j = 0 := by omega
      subst hj0; exact le_rfl
    · intro j hj hne
      omega
  · simp only [scanInv]
    refine ⟨?_, ⟨by omega, by omega, fun j hj => by omega⟩, ?_, fun hS => absurd hS (by omega)⟩
    · intro j hj
      have hj0 : j = 0 := by omega
      subst hj0; omega
    · intro j hj hne
      omega

theorem scanInv_step (c : ℕ → ℕ) (k : ℕ) (st : ℕ × ℕ × ℕ × ℕ)
    (h : scanInv c k st) : scanInv c (k + 1) (commonStep c st k) := by
  obtain ⟨M, m, S, s⟩ := st
  simp only [scanInv] at h
  obtain ⟨h1, ⟨hm1, hm2, hm3⟩, h3, h4⟩ := h
  simp only [commonStep]
  split_ifs with ha hb <;> simp only [scanInv]
  · -- c k > M: the new bin displaces the maximum; the old maximum becomes
    -- the second slot.
    refine ⟨?_, ⟨by omega, trivial, ?_⟩, ?_, ?_⟩
    · intro j hj
      by_cases hjk : j < k
      · exact le_trans (h1 j hjk) (le_of_lt ha)
      · have hj' : j = k := by omega
        subst hj'; exact le_rfl
    · exact fun j hj => lt_of_le_of_lt (h1 j hj) ha
    · intro j hj hne
      exact h1 j (by omega)
    · intro hS
      exact ⟨by omega, by omega, hm2, fun j hj _ => hm3 j hj⟩
  · -- M ≥ c k > S: the new bin takes the second slot.
    refine ⟨?_, ⟨by omega, hm2, hm3⟩, ?_, ?_⟩
    · intro j hj
      by_cases hjk : j < k
      · exact h1 j hjk
      · have hj' : j = k := by omega
        subst hj'; omega
    · intro j hj hne
      by_cases hjk : j < k
      · exact le_trans (h3 j hjk hne) (le_of_lt hb)
      · have hj' : j = k := by omega
        subst hj'; exact le_rfl
    · intro hck
      exact ⟨by omega, by omega, trivial, fun j hj hne => lt_of_le_of_lt (h3 j hj hne) hb⟩
  · -- the new bin displaces nothing.
    refine ⟨?_, ⟨by omega, hm2, hm3⟩, ?_, ?_⟩
    · intro j hj
      by_cases hjk : j < k
      · exact h1 j hjk
      · have hj' : j = k := by omega
        subst hj'; omega
    · intro j hj hne
      by_cases hjk : j < k
      · exact h3 j hjk hne
      · have hj' : j = k := by omega
        subst hj'; omega
    · intro hS
      obtain ⟨q1, q2, q3, q4⟩ := h4 hS
      exact ⟨by omega, q2, q3, q4⟩

theorem scanInv_upTo (c : ℕ → ℕ) : ∀ k, 1 ≤ k → scanInv c k (commonScanUpTo c k)
  | 0, h => absurd h (by omega)
  | 1, _ => scanInv_one c
  | k + 2, _ => scanInv_step c (k + 1) _ (scanInv_upTo c (k + 1) (by omega))

/-- C5 (amended): the primary slot of the most-common scan is always the
lowest index among the maximum-count bins; the secondary slot is the
lowest-index winner among the non-primary bins provided some non-primary bin
has a nonzero count; the model fields are exactly the scan results. -/
theorem c5_tie_break (c : ℕ → ℕ) (prev : LearnedTendencies) (buf : List ℕ) :
    lowestPrimary c (commonScanUpTo c 13).2.1
    ∧ ((∃ j, j < 13 ∧ j ≠ (commonScanUpTo c 13).2.1 ∧ 0 < c j) →
        lowestSecondary c (commonScanUpTo c 13).2.1 (commonScanUpTo c 13).2.2.2)
    ∧ (analyze_learned_notes prev buf).most_common_interval
        = (commonScanUpTo (analyze_learned_notes prev buf).interval_counts 13).2.1
    ∧ (analyze_learned_notes prev buf).second_common_interval
        = (commonScanUpTo (analyze_learned_notes prev buf).interval_counts 13).2.2.2 := by
  have hinv := scanInv_upTo c 13 (by omega)
  simp only [scanInv] at hinv
  obtain ⟨h1, ⟨hm1, hm2, hm3⟩, h3, h4⟩ := hinv
  refine ⟨⟨hm1, ?_, ?_⟩, ?_, ?_, ?_⟩
  · intro j hj
    rw [hm2]
    exact h1 j hj
  · intro j hj
    rw [hm2]
    exact hm3 j hj
  · rintro ⟨j, hj13, hjne, hjpos⟩
    have hS : 0 < (commonScanUpTo c 13).2.2.1 :=
      lt_of_lt_of_le hjpos (h3 j hj13 hjne)
    obtain ⟨q1, q2, q3, q4⟩ := h4 hS
    refine ⟨q1, q2, ?_, ?_⟩
    · intro i hi hine
      rw [q3]
      exact h3 i hi hine
    · intro i hi hine
      rw [q3]
      exact q4 i hi hine
  · simp only [analyze_learned_notes]
    split_ifs <;> rfl
  · simp only [analyze_learned_notes]
    split_ifs <;> rfl

/-- Counterexample to C5 as stated: learning the buffer [60, 60] produces a
histogram whose only nonzero bin is 0, and the scan leaves the secondary slot
equal to the primary slot (both 0), so second_common_interval is not a
lowest-index winner of a secondary slot distinct from the primary. -/
theorem c5_tie_break_counterexample :
    (analyze_learned_notes emptyTendencies [60, 60]).most_common_interval = 0
    ∧ (analyze_learned_notes emptyTendencies [60, 60]).second_common_interval = 0
    ∧ 0 < (analyze_learned_notes emptyTendencies [60, 60]).interval_counts 0
    ∧ ¬ lowestSecondary
        (analyze_learned_notes emptyTendencies [60, 60]).interval_counts
        (analyze_learned_notes emptyTendencies [60, 60]).most_common_interval
        (analyze_learned_notes emptyTendencies [60, 60]).second_common_interval := by
  refine ⟨rfl, rfl, by decide, ?_⟩
  intro h
  exact h.2.1 rfl

/-- Witness for C5 on the buffer [60, 62, 65], whose histogram has the two
nonzero bins 2 and 3. -/
theorem c5_tie_break_witness :
    lowestSecondary (analyze_learned_notes emptyTendencies [60, 62, 65]).interval_counts
      (commonScanUpTo (analyze_learned_notes emptyTendencies [60, 62, 65]).interval_counts 13).2.1
      (commonScanUpTo (analyze_learned_notes emptyTendencies [60, 62, 65]).interval_counts 13).2.2.2 :=
  (c5_tie_break (analyze_learned_notes emptyTendencies [60, 62, 65]).interval_counts
      emptyTendencies [60, 62, 65]).2.1 ⟨3, by omega, by decide, by decide⟩

/-- The XORshift32 PRNG step on a 32-bit state (xorshift32). -/
def xorshift32 (s : ℕ) : ℕ :=
  let s1 := s ^^^ ((s <<< 13) % 4294967296)
  let s2 := s1 ^^^ (s1 >>> 17)
  s2 ^^^ ((s2 <<< 5) % 4294967296)

/-- random_float: advance the PRNG and return the draw scaled to [0,1)
together with the new state. -/
def random_float (s : ℕ) : ℚ × ℕ :=
  let s1 := xorshift32 s
  ((s1 : ℚ) / 4294967296, s1)

/-- The firmware global state touched by the learning and generation core:
control parameters, session state, learning buffer, tendency model,
generation state, note history, phrase tracking, PRNG state, and the two UI
fields involved in the encoder-click handler. -/
structure GG where
  params : Params
  learning_state : LearningState
  note_buffer : List ℕ
  last_note_time : ℕ
  tendencies : LearnedTendencies
  current_note : ℕ
  previous_note : ℕ
  last_interval : ℤ
  last_direction_up : Bool
  note_history : Fin 8 → ℕ
  note_history_count : ℕ
  note_history_index : ℕ
  phrase_note_count : ℕ
  phrase_target_length : ℕ
  rng_state : ℕ
  current_page : ℕ
  page_change_timer : ℕ

/-- add_note_to_history: write at the circular index, advance it modulo 8,
and saturate the count at 8. -/
def add_note_to_history (s : GG) (note : ℕ) : GG :=
  { s with
    note_history :=
      Function.update s.note_history
        ⟨s.note_history_index % 8, Nat.mod_lt _ (by omega)⟩ note
    note_history_index := (s.note_history_index + 1) % 8
    note_history_count :=
      if s.note_history_count < 8 then s.note_history_count + 1
      else s.note_history_count }

/-- count_in_history: occurrences of the note among the first
note_history_count slots of the history array. -/
def count_in_history (s : GG) (note : ℕ) : ℕ :=
  ((List.finRange 8).take s.note_history_count).countP
    (fun i => decide (s.note_history i = note))

/-- The acceptance probability computed by apply_memory_bias for a note that
occurs h times in history, as a function of the energy-adjusted memory value
m, including the final clamp. -/
def acceptance_probability_of (m : ℚ) (h : ℕ) : ℚ :=
  clamp01
    (if m < 0.4 then 1 - ((0.4 - m) / 0.4) * h / 8
     else if m > 0.6 then 1 + ((m - 0.6) / 0.4) * h / 8
     else 1)

/-- apply_memory_bias: a note absent from history is accepted without
consuming randomness; otherwise a draw is compared against the acceptance
probability. -/
def apply_memory_bias (s : GG) (cand rng : ℕ) : Bool × ℕ :=
  let hc := count_in_history s cand
  if hc = 0 then (true, rng)
  else
    let p := acceptance_probability_of (effective_memory s.params) hc
    let r := random_float rng
    (decide (r.1 < p), r.2)

/-- The cumulative interval histogram used by
select_interval_from_distribution. -/
def cumulative (t : LearnedTendencies) (i : ℕ) : ℕ :=
  ∑ j in Finset.range (i + 1), t.interval_counts j

/-- select_interval_from_distribution: inverse-CDF sampling over bins 0..12,
defaulting to 2 on an empty histogram (no randomness consumed) and as the
scan fallback. -/
def select_interval_from_distribution (t : LearnedTendencies) (rng : ℕ) :
    ℕ × ℕ :=
  if t.total_intervals = 0 then (2, rng)
  else
    let r := random_float rng
    let rand_val := Int.toNat ⌊r.1 * (cumulative t 12 : ℚ)⌋
    (((List.range 13).find? (fun i => decide (rand_val < cumulative t i))).getD 2,
     r.2)

/-- select_direction: blend the learned ascending probability with the
DIRECTION control, apply energy-adjusted register gravity with the
phrase-boundary boost, clamp, and sample. -/
def select_direction (s : GG) (rng : ℕ) : Bool × ℕ :=
  let direction_bias := s.params.direction
  let learned_up_probability : ℚ :=
    if s.tendencies.ascending_count + s.tendencies.descending_count > 0 then
      (s.tendencies.ascending_count : ℚ)
        / ((s.tendencies.ascending_count + s.tendencies.descending_count : ℕ) : ℚ)
    else 0.5
  let blend_factor := |direction_bias - 0.5| * 2
  let target_probability : ℚ := if direction_bias > 0.5 then 1 else 0
  let base_probability :=
    learned_up_probability * (1 - blend_factor) + target_probability * blend_factor
  let eg0 := effective_gravity s.params
  let eg :=
    if s.phrase_target_length > 0 then
      let phrase_progress := (s.phrase_note_count : ℚ) / (s.phrase_target_length : ℚ)
      if phrase_progress > 0.7 then
        let phrase_boost := (phrase_progress - 0.7) / 0.3
        let e1 := eg0 + phrase_boost * 0.3
        if e1 > 1 then 1 else e1
      else eg0
    else eg0
  let gravity_influence : ℚ :=
    if eg > 0.05 then
      let distance_from_center := (s.current_note : ℚ) - s.tendencies.register_center
      let nd0 := distance_from_center / 24
      let nd1 := (if nd0 < -1 then -1 else nd0)
      let nd2 := (if nd1 > 1 then 1 else nd1)
      (-nd2) * eg
    else 0
  let final_probability := clamp01 (base_probability + gravity_influence * 0.5)
  let r := random_float rng
  (decide (r.1 < final_probability), r.2)

/-- The MIDI clamp fmax(0, fmin(127, x)) applied to a signed value. -/
def clampMidi (z : ℤ) : ℕ := (max 0 (min 127 z)).toNat

/-- apply_octave_displacement: the energy-adjusted RANGE_WIDTH gates a
probability of up to 20 percent; a triggered shift is plus or minus one
octave in the low range and a weighted choice among the four shifts in the
high range, clamped to the MIDI range. -/
def apply_octave_displacement (p : Params) (note rng : ℕ) : ℕ × ℕ :=
  let range_param := effective_range p
  if range_param < 0.1 then (note, rng)
  else
    let displacement_probability := range_param * 0.2
    let r1 := random_float rng
    if r1.1 > displacement_probability then (note, r1.2)
    else if range_param < 0.5 then
      let r2 := random_float r1.2
      let octave_shift : ℤ := if r2.1 > 0.5 then 12 else -12
      (clampMidi ((note : ℤ) + octave_shift), r2.2)
    else
      let r2 := random_float r1.2
      let octave_shift : ℤ :=
        if r2.1 < 0.5 then 12
        else if r2.1 < 0.75 then -12
        else if r2.1 < 0.875 then 24
        else -24
      (clampMidi ((note : ℤ) + octave_shift), r2.2)

/-- One attempt of the candidate loop in generate_next_note: select an
interval from the learned distribution, rescale it by the energy-adjusted
MOTION (with the coin-flip promotion of a collapsed interval), select a
direction, apply the signed interval with MIDI clamping, apply octave
displacement, and run memory acceptance.  Returns
(candidate, accepted, new rng state). -/
def attemptOnce (s : GG) (rng : ℕ) : ℕ × Bool × ℕ :=
  let motion_bias := effective_motion s.params
  let iv0 := select_interval_from_distribution s.tendencies rng
  let ivr :=
    if motion_bias < 0.5 then
      let scale := motion_bias * 2
      let shrunk := Int.toNat ⌊(iv0.1 : ℚ) * scale + 0.5⌋
      if shrunk = 0 then
        let r := random_float iv0.2
        (if r.1 > 0.5 then 1 else 0, r.2)
      else (shrunk, iv0.2)
    else
      let scale := (motion_bias - 0.5) * 2
      let boost := Int.toNat ⌊scale * 4⌋
      (min (iv0.1 + boost) 12, iv0.2)
  let dir := select_direction s ivr.2
  let signed_interval : ℤ := if dir.1 then (ivr.1 : ℤ) else -(ivr.1 : ℤ)
  let new_note := clampMidi ((s.current_note : ℤ) + signed_interval)
  let disp := apply_octave_displacement s.params new_note dir.2
  let acc := apply_memory_bias s disp.1 disp.2
  (disp.1, acc.1, acc.2)

/-- The candidate loop of generate_next_note with its remaining-attempt fuel:
an accepted candidate exits immediately, otherwise the last candidate is kept
and the loop retries until the fuel (MAX_ATTEMPTS = 4 at the call site) is
exhausted. -/
def attemptLoop (s : GG) : ℕ → ℕ → ℕ → ℕ × ℕ
  | 0, rng, cand => (cand, rng)
  | n + 1, rng, _cand =>
    let a := attemptOnce s rng
    if a.2.1 then (a.1, a.2.2)
    else attemptLoop s n a.2.2 a.1

/-- phrase_target_length = (int)(4.0f + phrase_param * 28.0f) with the
energy-adjusted PHRASE value. -/
def phrase_target_of (p : Params) : ℕ := Int.toNat ⌊4 + effective_phrase p * 28⌋

/-- generate_next_note: update the phrase target, run the candidate loop with
4 attempts, append the resulting note to the history, advance the phrase
counter with the probabilistic soft reset (which also folds the current time
into the PRNG state), and record previous note, last interval and last
direction.  Returns the new global state and the emitted note. -/
def generate_next_note (s : GG) (now : ℕ) : GG × ℕ :=
  let ptl := phrase_target_of s.params
  let s1 : GG := { s with phrase_target_length := ptl }
  let lr := attemptLoop s1 4 s1.rng_state 0
  let s2 := add_note_to_history s1 lr.1
  let pnc := s2.phrase_note_count + 1
  let pr : ℕ × ℕ :=
    if pnc ≥ ptl then
      let overrun : ℚ := (pnc : ℚ) - (ptl : ℚ)
      let rp0 := 0.5 + overrun / (ptl : ℚ) * 0.5
      let rp := if rp0 > 1 then 1 else rp0
      let r := random_float lr.2
      if r.1 < rp then (0, r.2 ^^^ (now % 4294967296))
      else (pnc, r.2)
    else (pnc, lr.2)
  ({ s2 with
      phrase_note_count := pr.1
      rng_state := pr.2
      previous_note := s1.current_note
      last_interval := (lr.1 : ℤ) - (s1.current_note : ℤ)
      last_direction_up := decide (lr.1 > s1.current_note) },
   lr.1)

/-- Iterated generation calls, one per trigger time in the list. -/
def generate_iter (s : GG) : List ℕ → GG
  | [] => s
  | t :: ts => generate_iter (generate_next_note s t).1 ts

/-- update_learning_state: in LEARNING, transition to GENERATING when the
buffer is full or the parameter-controlled timeout has elapsed with at least
the minimum 4 notes; on transition run the analysis and initialize the
generation state. -/
def update_learning_state (s : GG) (now : ℕ) : GG :=
  if s.learning_state = LearningState.learning then
    let time_since_note := (now + 4294967296 - s.last_note_time) % 4294967296
    let learning_timeout_ms := 500 + Int.toNat ⌊s.params.learn_timeout * 9500⌋
    if s.note_buffer.length ≥ 16
        ∨ (time_since_note > learning_timeout_ms ∧ s.note_buffer.length ≥ 4) then
      let t := analyze_learned_notes s.tendencies s.note_buffer
      { s with
        learning_state := LearningState.generating
        tendencies := t
        current_note := Int.toNat ⌊t.register_center⌋
        previous_note := Int.toNat ⌊t.register_center⌋
        last_interval := 0
        last_direction_up := decide (t.ascending_count ≥ t.descending_count)
        note_history := fun _ => 0
        note_history_count := 0
        note_history_index := 0
        phrase_note_count := 0
        phrase_target_length := 12
        rng_state := now % 4294967296 }
    else s
  else s

/-- The encoder-click handler in UpdateControls: in GENERATING it resets the
session to IDLE and discards the buffer; otherwise it resets the page. -/
def encoder_click (s : GG) : GG :=
  if s.learning_state = LearningState.generating then
    { s with
      learning_state := LearningState.idle
      note_buffer := []
      page_change_timer := 30 }
  else
    { s with current_page := 0, page_change_timer := 60 }

theorem clampMidi_le (z : ℤ) : clampMidi z ≤ 127 := by
  simp only [clampMidi]
  omega

theorem apply_octave_displacement_le (p : Params) (note rng : ℕ) (h : note ≤ 127) :
    (apply_octave_displacement p note rng).1 ≤ 127 := by
  simp only [apply_octave_displacement]
  split_ifs <;> first | exact h | exact clampMidi_le _

theorem attemptOnce_le (s : GG) (rng : ℕ) : (attemptOnce s rng).1 ≤ 127 :=
  apply_octave_displacement_le _ _ _ (clampMidi_le _)

theorem attemptLoop_le (s : GG) :
    ∀ (n rng cand : ℕ), (cand ≤ 127 ∨ 0 < n) → (attemptLoop s n rng cand).1 ≤ 127
  | 0, rng, cand, h => by
    simp only [attemptLoop]
    rcases h with h | h
    · exact h
    · exact absurd h (by omega)
  | n + 1, rng, cand, _h => by
    simp only [attemptLoop]
    by_cases ha : (attemptOnce s rng).2.1 = true
    · simp only [ha, if_true]
      exact attemptOnce_le s rng
    · simp only [ha, if_false, Bool.false_eq_true]
      exact attemptLoop_le s n _ _ (Or.inl (attemptOnce_le s rng))

/-- C2: for every global state and trigger time, generate_next_note returns a
MIDI note in the range 0..127: the candidate is clamped when the signed
interval is applied and again inside octave displacement, so every attempt
produces an in-range candidate and so does the whole call. -/
theorem c2_midi_range (s : GG) (now : ℕ) :
    (generate_next_note s now).2 ≤ 127
    ∧ ∀ rng, (attemptOnce { s with phrase_target_length := phrase_target_of s.params }
        rng).1 ≤ 127 :=
  ⟨attemptLoop_le { s with phrase_target_length := phrase_target_of s.params }
      4 s.rng_state 0 (Or.inr (by omega)),
   fun rng => attemptOnce_le _ rng⟩

/-- The PRNG state at the start of attempt k of the candidate loop, assuming
every earlier attempt was rejected. -/
def rejRngAt (s : GG) (rng0 : ℕ) : ℕ → ℕ
  | 0 => rng0
  | k + 1 => (attemptOnce s (rejRngAt s rng0 k)).2.2

/-- The candidate produced by attempt k of the candidate loop, assuming every
earlier attempt was rejected. -/
def candAt (s : GG) (rng0 k : ℕ) : ℕ := (attemptOnce s (rejRngAt s rng0 k)).1

/-- The acceptance decision of attempt k of the candidate loop, assuming
every earlier attempt was rejected. -/
def acceptedAt (s : GG) (rng0 k : ℕ) : Bool :=
  (attemptOnce s (rejRngAt s rng0 k)).2.1

theorem rejRngAt_shift (s : GG) (rng0 : ℕ) :
    ∀ k, rejRngAt s (rejRngAt s rng0 1) k = rejRngAt s rng0 (k + 1)
  | 0 => rfl
  | k + 1 => congrArg (fun r => (attemptOnce s r).2.2) (rejRngAt_shift s rng0 k)

theorem candAt_shift (s : GG) (rng0 k : ℕ) :
    candAt s (rejRngAt s rng0 1) k = candAt s rng0 (k + 1) := by
  simp only [candAt, rejRngAt_shift]

theorem acceptedAt_shift (s : GG) (rng0 k : ℕ) :
    acceptedAt s (rejRngAt s rng0 1) k = acceptedAt s rng0 (k + 1) := by
  simp only [acceptedAt, rejRngAt_shift]

theorem attemptLoop_spec (s : GG) :
    ∀ (n : ℕ), 0 < n → ∀ (rng0 cand : ℕ),
      ∃ k, k < n ∧ (attemptLoop s n rng0 cand).1 = candAt s rng0 k
        ∧ (acceptedAt s rng0 k = true ∨ k = n - 1)
        ∧ ∀ j, j < k → acceptedAt s rng0 j = false
  | 0, h0, _, _ => absurd h0 (by omega)
  | 1, _, rng0, cand => by
    simp only [attemptLoop]
    by_cases ha : (attemptOnce s rng0).2.1 = true
    · exact ⟨0, by omega, by simp only [ha, if_true]; rfl, Or.inl ha,
        fun j hj => absurd hj (by omega)⟩
    · exact ⟨0, by omega, by simp only [ha, if_false, Bool.false_eq_true]; rfl,
        Or.inr rfl, fun j hj => absurd hj (by omega)⟩
  | n + 2, _, rng0, cand => by
    simp only [attemptLoop]
    by_cases ha : (attemptOnce s rng0).2.1 = true
    · exact ⟨0, by omega, by simp only [ha, if_true]; rfl, Or.inl ha,
        fun j hj => absurd hj (by omega)⟩
    · obtain ⟨k, hk, hres, hacc, hrej⟩ :=
        attemptLoop_spec s (n + 1) (by omega) (rejRngAt s rng0 1)
          (attemptOnce s rng0).1
      refine ⟨k + 1, by omega, ?_, ?_, ?_⟩
      · simp only [ha, if_false, Bool.false_eq_true]
        rw [← candAt_shift]
        exact hres
      · rcases hacc with h | h
        · exact Or.inl (by rw [← acceptedAt_shift]; exact h)
        · exact Or.inr (by omega)
      · intro j hj
        match j, hj with
        | 0, _ =>
          simp only [acceptedAt, rejRngAt]
          exact Bool.not_eq_true _ ▸ ha
        | j + 1, hj =>
          rw [← acceptedAt_shift]
          exact hrej j (by omega)

/-- C4: the candidate loop runs at most 4 attempts: the emitted note is the
candidate of some attempt k < 4, earlier attempts having been rejected, and
it is either accepted or the unconditionally kept 4th candidate; if the
memory bias rejects all 4 candidates the 4th is still returned; the emitted
note is always appended to the history at the current circular index. -/
theorem c4_bounded_attempts (s : GG) (now : ℕ) :
    (∃ k, k < 4
      ∧ (generate_next_note s now).2
          = candAt { s with phrase_target_length := phrase_target_of s.params }
              s.rng_state k
      ∧ (acceptedAt { s with phrase_target_length := phrase_target_of s.params }
            s.rng_state k = true ∨ k = 3)
      ∧ ∀ j, j < k →
          acceptedAt { s with phrase_target_length := phrase_target_of s.params }
            s.rng_state j = false)
    ∧ ((∀ j, j < 4 →
          acceptedAt { s with phrase_target_length := phrase_target_of s.params }
            s.rng_state j = false) →
        (generate_next_note s now).2
          = candAt { s with phrase_target_length := phrase_target_of s.params }
              s.rng_state 3)
    ∧ (generate_next_note s now).1.note_history
          ⟨s.note_history_index % 8, Nat.mod_lt _ (by omega)⟩
        = (generate_next_note s now).2 := by
  have hspec := attemptLoop_spec
      { s with phrase_target_length := phrase_target_of s.params } 4 (by omega)
      s.rng_state 0
  have hgen : (generate_next_note s now).2
      = (attemptLoop { s with phrase_target_length := phrase_target_of s.params }
          4 s.rng_state 0).1 := rfl
  refine ⟨?_, ?_, ?_⟩
  · rw [hgen]
    exact hspec
  · intro hall
    obtain ⟨k, hk, hres, hacc, _⟩ := hspec
    rcases hacc with h | h
    · exact absurd h (by simp [hall k hk])
    · rw [hgen, hres, h]
  · exact Function.update_same _ _ _

/-- Iterating generate_next_note preserves the learning-side state. -/
theorem generate_iter_frame :
    ∀ (nows : List ℕ) (s : GG),
      (generate_iter s nows).note_buffer = s.note_buffer
      ∧ (generate_iter s nows).tendencies = s.tendencies
      ∧ (generate_iter s nows).learning_state = s.learning_state
      ∧ (generate_iter s nows).params = s.params
      ∧ (generate_iter s nows).current_note = s.current_note
      ∧ (generate_iter s nows).last_note_time = s.last_note_time
      ∧ (generate_iter s nows).current_page = s.current_page
      ∧ (generate_iter s nows).page_change_timer = s.page_change_timer
  | [], s => ⟨rfl, rfl, rfl, rfl, rfl, rfl, rfl, rfl⟩
  | t :: ts, s => by
    have ih := generate_iter_frame ts (generate_next_note s t).1
    simp only [generate_iter]
    exact ⟨ih.1, ih.2.1, ih.2.2.1, ih.2.2.2.1, ih.2.2.2.2.1, ih.2.2.2.2.2.1,
      ih.2.2.2.2.2.2.1, ih.2.2.2.2.2.2.2⟩

/-- C10: a generate_next_note call mutates only the generation-side state:
the learning buffer, the tendency model, the session state, the control
parameters, the current note, the learning timer and the UI fields are
unchanged, for one call and for arbitrarily many iterated calls. -/
theorem c10_generation_frame (s : GG) (now : ℕ) (nows : List ℕ) :
    ((generate_next_note s now).1.note_buffer = s.note_buffer
      ∧ (generate_next_note s now).1.tendencies = s.tendencies
      ∧ (generate_next_note s now).1.learning_state = s.learning_state
      ∧ (generate_next_note s now).1.params = s.params
      ∧ (generate_next_note s now).1.current_note = s.current_note
      ∧ (generate_next_note s now).1.last_note_time = s.last_note_time
      ∧ (generate_next_note s now).1.current_page = s.current_page
      ∧ (generate_next_note s now).1.page_change_timer = s.page_change_timer)
    ∧ ((generate_iter s nows).note_buffer = s.note_buffer
      ∧ (generate_iter s nows).tendencies = s.tendencies
      ∧ (generate_iter s nows).learning_state = s.learning_state
      ∧ (generate_iter s nows).params = s.params) :=
  ⟨⟨rfl, rfl, rfl, rfl, rfl, rfl, rfl, rfl⟩,
   (generate_iter_frame nows s).1, (generate_iter_frame nows s).2.1,
   (generate_iter_frame nows s).2.2.1, (generate_iter_frame nows s).2.2.2.1⟩

theorem clamp01_bounds (x : ℚ) : 0 ≤ clamp01 x ∧ clamp01 x ≤ 1 := by
  rw [clamp01_eq_max_min]
  exact ⟨le_max_left _ _, max_le (by norm_num) (min_le_left _ _)⟩

theorem clamp01_eq_self {x : ℚ} (h0 : 0 ≤ x) (h1 : x ≤ 1) : clamp01 x = x := by
  rw [clamp01_eq_max_min, min_eq_right h1, max_eq_right h0]

/-- C7: memory acceptance is the stated function of the energy-adjusted
MEMORY value m and the occurrence count h in the 8-note history: a candidate
with h = 0 is always accepted (no randomness consumed); h never exceeds 8;
the adjusted m lies in [0,1]; for h > 0 the acceptance probability is
1 - ((0.4-m)/0.4)*h/8 when m < 0.4, exactly 1 when 0.4 <= m <= 0.6, and
1 + ((m-0.6)/0.4)*h/8 clamped to 1 when m > 0.6, and the accept decision
compares a fresh draw against that probability. -/
theorem c7_memory_acceptance (s : GG) (cand rng : ℕ) :
    (count_in_history s cand = 0 → apply_memory_bias s cand rng = (true, rng))
    ∧ count_in_history s cand ≤ 8
    ∧ (0 ≤ effective_memory s.params ∧ effective_memory s.params ≤ 1)
    ∧ (∀ (m : ℚ) (h : ℕ), 0 ≤ m → m ≤ 1 → h ≤ 8 →
        acceptance_probability_of m h
          = if m < 0.4 then 1 - ((0.4 - m) / 0.4) * (h : ℚ) / 8
            else if m ≤ 0.6 then 1
            else min 1 (1 + ((m - 0.6) / 0.4) * (h : ℚ) / 8))
    ∧ (0 < count_in_history s cand →
        apply_memory_bias s cand rng
          = (decide ((random_float rng).1
                < acceptance_probability_of (effective_memory s.params)
                    (count_in_history s cand)),
             (random_float rng).2)) := by
  refine ⟨?_, ?_, ?_, ?_, ?_⟩
  · intro h
    simp [apply_memory_bias, h]
  · refine le_trans (List.countP_le_length _) ?_
    simp [List.length_take]
  · exact clamp01_bounds _
  · intro m h hm0 hm1 hh
    have hh0 : (0 : ℚ) ≤ (h : ℚ) := Nat.cast_nonneg h
    have hh8 : (h : ℚ) ≤ 8 := by exact_mod_cast hh
    by_cases h1 : m < 0.4
    · rw [if_pos h1]
      simp only [acceptance_probability_of, if_pos h1]
      have ha0 : (0 : ℚ) ≤ (0.4 - m) / 0.4 := by
        apply div_nonneg <;> linarith
      have ha1 : (0.4 - m) / 0.4 ≤ 1 := by
        rw [div_le_one (by norm_num)]
        linarith
      have hq1 : (0.4 - m) / 0.4 * (h : ℚ) ≤ 8 := by
        nlinarith
      have hq0 : (0 : ℚ) ≤ (0.4 - m) / 0.4 * (h : ℚ) := mul_nonneg ha0 hh0
      apply clamp01_eq_self
      · linarith
      · linarith
    · rw [if_neg h1]
      by_cases h2 : m > 0.6
      · rw [if_neg (by linarith : ¬ m ≤ 0.6)]
        simp only [acceptance_probability_of, if_neg h1, if_pos h2]
        have hb0 : (0 : ℚ) ≤ (m - 0.6) / 0.4 * (h : ℚ) / 8 := by
          apply div_nonneg _ (by norm_num)
          exact mul_nonneg (div_nonneg (by linarith) (by norm_num)) hh0
        rw [clamp01_eq_max_min, max_eq_right]
        exact le_min (by norm_num) (by linarith)
      · rw [if_pos (by linarith : m ≤ 0.6)]
        simp only [acceptance_probability_of, if_neg h1, if_neg h2]
        exact clamp01_eq_self (by norm_num) (by norm_num)
  · intro hpos
    have hne : ¬ count_in_history s cand = 0 := by omega
    simp [apply_memory_bias, hne]

/-- C3: in LEARNING the session transitions to GENERATING exactly when the
buffer holds 16 notes or the elapsed time since the last pushed note exceeds
the parameter-controlled timeout with at least 4 notes buffered; with fewer
than 4 notes no elapsed time causes a transition, and when the condition
fails the state is completely unchanged. -/
theorem c3_learning_transition (s : GG) (now : ℕ)
    (hstate : s.learning_state = LearningState.learning)
    (hlen : s.note_buffer.length ≤ 16)
    (hlast : s.last_note_time ≤ now) (hnow : now < 4294967296) :
    ((update_learning_state s now).learning_state = LearningState.generating
      ↔ s.note_buffer.length = 16
        ∨ (now - s.last_note_time
              > 500 + Int.toNat ⌊s.params.learn_timeout * 9500⌋
            ∧ 4 ≤ s.note_buffer.length))
    ∧ (s.note_buffer.length < 4 →
        (update_learning_state s now).learning_state = LearningState.learning)
    ∧ (¬ (s.note_buffer.length = 16
          ∨ (now - s.last_note_time
                > 500 + Int.toNat ⌊s.params.learn_timeout * 9500⌋
              ∧ 4 ≤ s.note_buffer.length)) →
        update_learning_state s now = s) := by
  have helapsed : (now + 4294967296 - s.last_note_time) % 4294967296
      = now - s.last_note_time := by omega
  simp only [update_learning_state, if_pos hstate, helapsed]
  by_cases hc : s.note_buffer.length ≥ 16
      ∨ (now - s.last_note_time > 500 + Int.toNat ⌊s.params.learn_timeout * 9500⌋
          ∧ s.note_buffer.length ≥ 4)
  · rw [if_pos hc]
    refine ⟨?_, ?_, ?_⟩
    · constructor
      · intro _
        rcases hc with h | h
        · exact Or.inl (by omega)
        · exact Or.inr ⟨h.1, h.2⟩
      · intro _
        rfl
    · intro h4
      exfalso
      rcases hc with h | h
      · omega
      · omega
    · intro hn
      exfalso
      rcases hc with h | h
      · exact hn (Or.inl (by omega))
      · exact hn (Or.inr ⟨h.1, h.2⟩)
  · rw [if_neg hc]
    refine ⟨?_, fun _ => hstate, fun _ => rfl⟩
    constructor
    · intro hgen
      rw [hstate] at hgen
      exact absurd hgen (by decide)
    · intro hor
      exfalso
      apply hc
      rcases hor with h | h
      · exact Or.inl (by omega)
      · exact Or.inr ⟨h.1, h.2⟩

/-- C8 (amended): the encoder-click reset in GENERATING forces the session
directly to IDLE and discards the learning buffer; in LEARNING the click
leaves the session state and the buffer untouched (it only resets the page). -/
theorem c8_manual_reset (s : GG) :
    (s.learning_state = LearningState.generating →
      (encoder_click s).learning_state = LearningState.idle
        ∧ (encoder_click s).note_buffer = [])
    ∧ (s.learning_state = LearningState.learning →
        (encoder_click s).learning_state = LearningState.learning
          ∧ (encoder_click s).note_buffer = s.note_buffer) := by
  constructor
  · intro h
    simp [encoder_click, h]
  · intro h
    have hne : ¬ s.learning_state = LearningState.generating := by
      rw [h]
      decide
    simp [encoder_click, hne, h]

/-- A concrete state in GENERATING mode after learning a pentatonic phrase. -/
def genGG : GG :=
  { params := midParams
    learning_state := LearningState.generating
    note_buffer := [60, 62, 64, 67, 69]
    last_note_time := 0
    tendencies := analyze_learned_notes emptyTendencies [60, 62, 64, 67, 69]
    current_note := 64
    previous_note := 64
    last_interval := 0
    last_direction_up := true
    note_history := fun _ => 0
    note_history_count := 0
    note_history_index := 0
    phrase_note_count := 0
    phrase_target_length := 12
    rng_state := 12345
    current_page := 0
    page_change_timer := 0 }

/-- A concrete LEARNING state holding 3 notes. -/
def learnGG3 : GG :=
  { genGG with
    learning_state := LearningState.learning
    note_buffer := [60, 62, 64] }

/-- A concrete LEARNING state holding 4 notes, with the timeout parameter at
its minimum. -/
def learnGG4 : GG :=
  { genGG with
    learning_state := LearningState.learning
    note_buffer := [60, 62, 64, 65]
    params := { midParams with learn_timeout := 0 }
    last_note_time := 0 }

/-- Witness for C3: four notes and an elapsed time beyond the 500 ms minimum
timeout transition the session to GENERATING. -/
theorem c3_learning_transition_witness :
    (update_learning_state learnGG4 601).learning_state
      = LearningState.generating :=
  (c3_learning_transition learnGG4 601 rfl (by decide) (by decide)
      (by decide)).1.mpr
    (Or.inr ⟨by norm_num [learnGG4, genGG, midParams], by decide⟩)

/-- Witness for C4 at the concrete generating state. -/
theorem c4_bounded_attempts_witness :
    (generate_next_note genGG 777).1.note_history ⟨0, by omega⟩
      = (generate_next_note genGG 777).2 :=
  (c4_bounded_attempts genGG 777).2.2

/-- Witness for C7: the acceptance probability at m = 0.2 and h = 3. -/
theorem c7_memory_acceptance_witness :
    acceptance_probability_of 0.2 3
      = if (0.2 : ℚ) < 0.4 then 1 - ((0.4 - (0.2 : ℚ)) / 0.4) * ((3 : ℕ) : ℚ) / 8
        else if (0.2 : ℚ) ≤ 0.6 then 1
        else min 1 (1 + (((0.2 : ℚ) - 0.6) / 0.4) * ((3 : ℕ) : ℚ) / 8) :=
  (c7_memory_acceptance genGG 60 0).2.2.2.1 0.2 3 (by norm_num) (by norm_num)
    (by omega)

/-- Counterexample to C8 as stated: an encoder click received in LEARNING
does not force IDLE and does not discard the buffer. -/
theorem c8_manual_reset_counterexample :
    (encoder_click learnGG3).learning_state = LearningState.learning
    ∧ (encoder_click learnGG3).learning_state ≠ LearningState.idle
    ∧ (encoder_click learnGG3).note_buffer = [60, 62, 64] := by
  refine ⟨rfl, by decide, rfl⟩

/-- Witness for C8: an encoder click received in GENERATING forces IDLE and
clears the buffer. -/
theorem c8_manual_reset_witness :
    (encoder_click genGG).learning_state = LearningState.idle
    ∧ (encoder_click genGG).note_buffer = [] :=
  (c8_manual_reset genGG).1 rfl

end GenGen
